import Mathlib

/-!
Verification of the Anora voice mood-reflection app (Speech Turn-Taking
Controller, Reflection endpoint and speech adapters).

Shallow embedding conventions:
 - JavaScript strings are modelled as `List Char` (`Str`); `trim`,
   `toLowerCase` and `includes` are modelled over char lists.
 - The client controller state (`src/app/page.tsx`, current revision) is a
   structure; `processReflection` is a pure function from the controller
   state, the finalized text and the fetch outcome to the new state plus the
   ordered list of external effects it performs.
 - The silence-debounce logic of `useSpeechInput` (`src/utils/speech-output.ts`,
   second embedded hook) is a small-step event system over fragment arrivals
   and timer firings, times in milliseconds.
 - The server route (`POST /api/reflect`, Prisma revision embedded in
   `src/app/page.tsx`) is a pure function over an explicit database state,
   with the AI model and the fresh user id supplied as oracle inputs.
-/

/-! ## Strings as char lists -/

def strL (s : String) : List Char := s.data

abbrev Str := List Char

/-- Apostrophe character, used to spell string constants from the source. -/
def apos : Char := Char.ofNat 39

/-- Whitespace test used by the model of JavaScript trim. -/
def isWs (c : Char) : Bool :=
  c = ' ' || c = Char.ofNat 9 || c = Char.ofNat 10 || c = Char.ofNat 13

/-- Model of JavaScript String.prototype.trim. -/
def trimStr (s : Str) : Str :=
  ((s.dropWhile isWs).reverse.dropWhile isWs).reverse

/-- Model of JavaScript String.prototype.toLowerCase (ASCII case folding). -/
def lowerStr (s : Str) : Str := s.map Char.toLower

/-- The pattern is an initial segment of the string. -/
def startsWithStr : Str → Str → Bool
  | _, [] => true
  | [], _ :: _ => false
  | c :: s, d :: p => c = d && startsWithStr s p

/-- Model of JavaScript String.prototype.includes (substring occurrence). -/
def includesStr : Str → Str → Bool
  | [], p => startsWithStr [] p
  | c :: s, p => startsWithStr (c :: s) p || includesStr s p

/-! ## Speech input hook: silence-timer debounce
(`useSpeechInput` in `src/utils/speech-output.ts`, lines 116-143 of the
embedded hook). On each recognition result carrying non-empty text the hook
sets the recording flag, replaces the transcript, clears any armed silence
timer and arms a new one for 2000 ms; when the armed timer fires, the
recording flag is cleared. -/

structure InputState where
  recording : Bool
  deadline : Option Nat
  buffer : Str
deriving DecidableEq, Repr

/-- An event of the speech-input hook: a non-empty recognition fragment
arriving at time `t` (carrying cumulative text), or the environment checking
an armed timer at time `t` (the timer callback runs once `t` reaches the
armed deadline; a cleared or re-armed timer never fires early). -/
inductive SEvent
  | frag (t : Nat) (text : Str)
  | fire (t : Nat)
deriving DecidableEq, Repr

def eventTime : SEvent → Nat
  | .frag t _ => t
  | .fire t => t

def silenceMs : Nat := 2000

/-- One step of the speech-input hook, from `recognition.onresult` (fragment:
set recording, replace transcript, re-arm the 2000 ms timer) and the armed
timer firing (clear recording). Fragments modelled here are those with
non-empty recognized text, matching the `finalTranscript || interimTranscript`
guard in the source. -/
def istep (st : InputState) : SEvent → InputState
  | .frag t text => { recording := true, deadline := some (t + silenceMs), buffer := text }
  | .fire t =>
    match st.deadline with
    | some d => if d ≤ t then { st with recording := false, deadline := none } else st
    | none => st

def runInput (evs : List SEvent) : InputState :=
  evs.foldl istep ⟨false, none, []⟩

def fragTimes (evs : List SEvent) : List Nat :=
  evs.filterMap fun e => match e with
    | .frag t _ => some t
    | .fire _ => none

def fireTimes (evs : List SEvent) : List Nat :=
  evs.filterMap fun e => match e with
    | .frag _ _ => none
    | .fire t => some t

def eventTimes (evs : List SEvent) : List Nat := evs.map eventTime

/-- Pure well-spacing condition on a list of fragment arrival times: each
fragment arrives before the previous fragment's 2000 ms silence deadline, and
the last fragment's deadline is at least 3900 ms. -/
def gapsOk : List Nat → Bool
  | [] => true
  | [p] => decide (3900 ≤ p + silenceMs)
  | p :: p2 :: ps => decide (p2 < p + silenceMs) && gapsOk (p2 :: ps)

/-- Loop invariant for the debounce run: with fragments still pending, the
silence timer is either unarmed or armed strictly beyond the next fragment
time; with no fragment pending, recording is set and the armed deadline is at
least 3900 ms. -/
def inputInv (st : InputState) : List Nat → Prop
  | [] => st.recording = true ∧ ∃ d, st.deadline = some d ∧ 3900 ≤ d
  | p :: _ => st.deadline = none ∨ ∃ d, st.deadline = some d ∧ p < d

/-! ## Tone classification (`detectToneFromAI` in the reflect route).
The Gemini call is an oracle input: either the text the model returned, or a
thrown error. A missing API key, an unrecognized model output and a thrown
error all fall back to neutral. -/

inductive Tone
  | calm | excited | sad | neutral | angry | anxious | hopeful
deriving DecidableEq, Repr

def toneStr : Tone → Str
  | .calm => strL "calm"
  | .excited => strL "excited"
  | .sad => strL "sad"
  | .neutral => strL "neutral"
  | .angry => strL "angry"
  | .anxious => strL "anxious"
  | .hopeful => strL "hopeful"

/-- The `validTones.includes` check of the source, returning the matched
enumerated tone. -/
def toneOfStr (s : Str) : Option Tone :=
  if s = strL "calm" then some .calm
  else if s = strL "excited" then some .excited
  else if s = strL "sad" then some .sad
  else if s = strL "neutral" then some .neutral
  else if s = strL "angry" then some .angry
  else if s = strL "anxious" then some .anxious
  else if s = strL "hopeful" then some .hopeful
  else none

/-- Model of `detectToneFromAI`: no API key defaults to neutral; a model error is
caught and defaults to neutral; the model output is trimmed and lowercased
and, when not among the seven valid tones, defaults to neutral. -/
def detectToneFromAI (apiKey : Option Str) (modelResult : Except Str Str) : Tone :=
  match apiKey with
  | none => .neutral
  | some _ =>
    match modelResult with
    | .error _ => .neutral
    | .ok out =>
      match toneOfStr (lowerStr (trimStr out)) with
      | some t => t
      | none => .neutral

/-! ## Client controller (`VoiceReflectionApp` in `src/app/page.tsx`) -/

structure HistoryItem where
  userInput : Str
  detectedTone : Str
  aiResponse : Str
deriving DecidableEq, Repr

structure ClientState where
  currentTone : Str
  isProcessing : Bool
  transcript : Str
  showTranscript : Bool
  aiResponse : Str
  isClient : Bool
  error : Option Str
  userId : Option Str
  userHistory : List HistoryItem
  lastProcessedTranscript : Str
  isListening : Bool
deriving DecidableEq, Repr

/-- Parsed JSON body of a successful reflect response; an absent or empty
field is the empty string, matching the truthiness checks of the source. -/
structure RespBody where
  response : Str
  tone : Str
  userId : Str
deriving DecidableEq, Repr

/-- Outcome of the fetch against `/api/reflect`: the network fails, the
response is not ok (non-success status), the success body fails to parse, or
a parsed body arrives. -/
inductive FetchOutcome
  | networkError
  | httpError (status : Nat)
  | badJson
  | ok (body : RespBody)
deriving DecidableEq, Repr

/-- Which deferred reset `setTimeout` callback was scheduled: the 2000 ms one
of the success path or the 3000 ms one of the catch path. -/
inductive ResetKind
  | afterSuccess | afterFailure
deriving DecidableEq, Repr

/-- External effects performed by the controller, in program order. -/
inductive Effect
  | dispatchRequest (text : Str) (userId : Option Str)
  | navigate (path : Str)
  | stopSpeakingCall
  | speakCall (text : Str)
  | schedule (delayMs : Nat) (kind : ResetKind)
  | startListeningCall
deriving DecidableEq, Repr

def fallbackResponse : Str :=
  strL "I" ++ [apos] ++ strL "m here to listen. Please continue sharing your thoughts."

/-- Detail part of the catch-path error message (`error.message` or the
unknown-error default), by fetch outcome. -/
def errDetail : FetchOutcome → Str
  | .networkError => strL "Failed to fetch"
  | .httpError _ => strL "Server error"
  | .badJson => strL "Invalid JSON"
  | .ok _ => strL "Invalid response from server"

/-- The transient error text set by the catch path. -/
def troubleMsg (o : FetchOutcome) : Str :=
  strL "I" ++ [apos] ++ strL "m having trouble processing your reflection: " ++ errDetail o

def moodPhrase1 : Str := strL "open mood tracker"
def moodPhrase2 : Str := strL "mood tracker"

/-- State updates and effects of the catch path of `processReflection`: set
the error text and the fallback reply, speak the fallback once (its own
failure is caught), schedule the 3000 ms reset, and clear the processing flag
in the finally block. -/
def failurePath (s1 : ClientState) (o : FetchOutcome) (pre : List Effect) :
    ClientState × List Effect :=
  ({ s1 with error := some (troubleMsg o), aiResponse := fallbackResponse,
             isProcessing := false },
   pre ++ [Effect.speakCall fallbackResponse, Effect.schedule 3000 ResetKind.afterFailure])

/-- Model of `processReflection` of `src/app/page.tsx` as a pure function of the
controller state, the finalized text and the fetch outcome, returning the new
state and the ordered effects. Follows the source: the processing/empty-text
guard, the mood-tracker voice command, marking the text processed, the fetch
with the trimmed text, body validation, identity/tone/reply/history updates,
playback, and the deferred reset; the finally block clears the processing
flag before the function returns. -/
def processReflection (s : ClientState) (text : Str) (outcome : FetchOutcome) :
    ClientState × List Effect :=
  if s.isProcessing || decide (trimStr text = []) then (s, [])
  else if includesStr (lowerStr text) moodPhrase1
       || includesStr (lowerStr text) moodPhrase2 then
    (s, [Effect.navigate (strL "/moodtracker")])
  else
    let s1 := { s with isProcessing := true, error := none,
                       lastProcessedTranscript := text }
    let req := Effect.dispatchRequest (trimStr text) s.userId
    match outcome with
    | .ok body =>
      if body.response = [] || body.tone = [] || body.userId = [] then
        failurePath s1 (.ok body) [req]
      else
        let s2 := if s1.userId ≠ some body.userId
                  then { s1 with userId := some body.userId } else s1
        let item : HistoryItem := ⟨text, body.tone, body.response⟩
        let s3 := { s2 with currentTone := body.tone, aiResponse := body.response,
                            userHistory := item :: s2.userHistory.take 9 }
        ({ s3 with isProcessing := false },
         [req, Effect.stopSpeakingCall, Effect.speakCall body.response,
          Effect.schedule 2000 ResetKind.afterSuccess])
    | o => failurePath s1 o [req]

/-- The deferred reset callback: both kinds clear the transcript and its
display, the failure one also clears the error, and both re-arm listening
when the session is client-side and not already listening. -/
def applyReset (k : ResetKind) (s : ClientState) : ClientState × List Effect :=
  match k with
  | .afterSuccess =>
    ({ s with transcript := [], showTranscript := false },
     if s.isClient && !s.isListening then [Effect.startListeningCall] else [])
  | .afterFailure =>
    ({ s with transcript := [], error := none, showTranscript := false },
     if s.isClient && !s.isListening then [Effect.startListeningCall] else [])

/-- Guard of the dispatch effect (`useEffect` at the cited lines): recording
stopped, non-empty transcript longer than 10 chars, and different from the
last processed transcript. -/
def dispatchGuard (isRecording : Bool) (transcript lastProcessed : Str) : Bool :=
  !isRecording && decide (transcript ≠ []) && decide (transcript.length > 10)
    && decide (transcript ≠ lastProcessed)

/-- One controller turn: the dispatch effect fires `processReflection` on the
buffered transcript exactly when its guard holds. -/
def turnStep (s : ClientState) (isRecording : Bool) (o : FetchOutcome) :
    ClientState × List Effect :=
  if dispatchGuard isRecording s.transcript s.lastProcessedTranscript
  then processReflection s s.transcript o
  else (s, [])

def isDispatchEff : Effect → Bool
  | .dispatchRequest _ _ => true
  | _ => false

def countDispatch (es : List Effect) : Nat := (es.filter isDispatchEff).length

/-- Buffered transcript after a sequence of cumulative capture fragments:
each non-empty fragment replaces the buffer (the recognition stream delivers
cumulative text, and both the hook and the page effect ignore empty text). -/
def bufferAfter (init : Str) (frags : List Str) : Str :=
  frags.foldl (fun acc f => if f = [] then acc else f) init

/-! ## Reflect endpoint (`POST /api/reflect`, Prisma revision).
The database is an explicit state; the id Prisma would mint for a created
user, the detected tone and the generated reply are oracle inputs. -/

structure HistRec where
  userId : Str
  userInput : Str
  detectedTone : Str
  aiResponse : Str
deriving DecidableEq, Repr

structure DB where
  users : List Str
  histories : List HistRec
deriving DecidableEq, Repr

/-- Server response of the reflect endpoint: a success body, or an error
body with the HTTP status (400 for missing text, 500 for internal failure). -/
inductive ServerResp
  | ok (body : RespBody)
  | err (status : Nat) (msg : Str)
deriving DecidableEq, Repr

/-- Model of `getOrCreateUser`: a truthy caller id naming an existing user is kept;
otherwise a fresh user row is created and its id returned. -/
def getOrCreateUser (db : DB) (uid : Option Str) (freshId : Str) : Str × DB :=
  match uid with
  | some u =>
    if u ≠ [] && decide (u ∈ db.users) then (u, db)
    else (freshId, { db with users := freshId :: db.users })
  | none => (freshId, { db with users := freshId :: db.users })

/-- Model of `saveReflectionToHistory`: append the turn keyed by the user id
when the database write succeeds; a failing `prisma.history.create` is caught
inside the function and only logged, leaving the store unchanged. Whether the
write succeeds is an environment oracle (`writeOk`). -/
def saveReflectionToHistory (db : DB) (userId text tone response : Str)
    (writeOk : Bool) : DB :=
  if writeOk then
    { db with histories := db.histories ++ [⟨userId, text, tone, response⟩] }
  else db

/-- The POST handler: reject missing or trim-empty text with a 400 before any
persistence; otherwise resolve the user id, attempt to persist the turn under
it, and answer with the reply, the tone and that id. The tone and reply
computed by the AI calls, and the success of the history write, are oracle
inputs: the handler calls `saveReflectionToHistory` without awaiting it and
that function swallows write failures, so the success response is returned
whether or not the write succeeded. -/
def postReflect (db : DB) (text : Option Str) (uid : Option Str)
    (freshId : Str) (tone : Tone) (respText : Str) (writeOk : Bool) :
    ServerResp × DB :=
  match text with
  | none => (.err 400 (strL "Text is required"), db)
  | some t =>
    if trimStr t = [] then (.err 400 (strL "Text is required"), db)
    else
      let (userId, db1) := getOrCreateUser db uid freshId
      let db2 := saveReflectionToHistory db1 userId t (toneStr tone) respText
        writeOk
      (.ok ⟨respText, toneStr tone, userId⟩, db2)

/-! ## Processing-flag mutual exclusion.
Small-step view of the `isProcessing` gate of `processReflection`: a call is
rejected while the flag is set; an accepted call sets the flag and puts its
request in flight; the finally block clears the flag once the request and
playback have fully resolved. -/

structure ProcState where
  isProcessing : Bool
  inFlight : Nat
deriving DecidableEq, Repr

inductive ProcStep : ProcState → ProcState → Prop
  | start (s : ProcState) (h : s.isProcessing = false) :
      ProcStep s ⟨true, s.inFlight + 1⟩
  | guardReject (s : ProcState) (h : s.isProcessing = true) : ProcStep s s
  | finish (s : ProcState) (h : s.isProcessing = true) :
      ProcStep s ⟨false, s.inFlight - 1⟩

inductive ProcReach : ProcState → Prop
  | init : ProcReach ⟨false, 0⟩
  | step {s t : ProcState} : ProcReach s → ProcStep s t → ProcReach t

/-! ## Playback sink (`useSpeechOutput` in `src/utils/speech-output.ts`).
`speak` first cancels any in-progress synthesis and then starts its own
utterance, whose registered `onend`/`onerror` handlers settle the pending
promise; `stopSpeaking` cancels. A cancellation makes the engine fire the
pending utterance's handler (interrupted), a natural end fires `onend`. -/

structure Settlement where
  promiseId : Nat
  interrupted : Bool
deriving DecidableEq, Repr

structure SinkState where
  pending : Option (Nat × Str)
  settled : List Settlement
  nextId : Nat
deriving DecidableEq, Repr

inductive SinkOp
  | speakOp (text : Str)
  | cancelOp
  | endEvent
deriving DecidableEq, Repr

/-- Model of `speechSynthesis.cancel()`: the pending utterance, if any, is settled via
its registered handler (interrupted) and removed. -/
def cancelPending (st : SinkState) : SinkState :=
  match st.pending with
  | none => st
  | some (i, _) => { st with pending := none, settled := ⟨i, true⟩ :: st.settled }

/-- One playback-sink operation: `speak` cancels first and then becomes the
only pending utterance; `stopSpeaking` cancels; the engine ending the current
utterance settles it via `onend`. -/
def sinkStep (st : SinkState) : SinkOp → SinkState
  | .speakOp t =>
    let st1 := cancelPending st
    { st1 with pending := some (st1.nextId, t), nextId := st1.nextId + 1 }
  | .cancelOp => cancelPending st
  | .endEvent =>
    match st.pending with
    | none => st
    | some (i, _) => { st with pending := none, settled := ⟨i, false⟩ :: st.settled }

/-- The fetch outcomes that take the catch path of `processReflection`:
thrown network errors, non-success statuses, unparsable bodies, and parsed
bodies missing a required field. -/
def isFailureOutcome : FetchOutcome → Bool
  | .networkError => true
  | .httpError _ => true
  | .badJson => true
  | .ok b => b.response = [] || b.tone = [] || b.userId = []

/-! ## Helper lemmas -/

theorem startsWithStr_mem {s p : Str} (h : startsWithStr s p = true) :
    ∀ c ∈ p, c ∈ s := by
  induction p generalizing s with
  | nil => intro c hc; cases hc
  | cons d p ih =>
    cases s with
    | nil => simp [startsWithStr] at h
    | cons a s =>
      simp only [startsWithStr, Bool.and_eq_true, decide_eq_true_eq] at h
      intro c hc
      rcases List.mem_cons.mp hc with rfl | hc
      · exact h.1 ▸ List.mem_cons_self _ _
      · exact List.mem_cons_of_mem _ (ih h.2 c hc)

theorem includesStr_mem {s p : Str} (h : includesStr s p = true) :
    ∀ c ∈ p, c ∈ s := by
  induction s with
  | nil => exact startsWithStr_mem h
  | cons a s ih =>
    simp only [includesStr, Bool.or_eq_true] at h
    rcases h with h | h
    · exact startsWithStr_mem h
    · intro c hc; exact List.mem_cons_of_mem _ (ih h c hc)

theorem toLower_of_ws {c : Char} (h : isWs c = true) : c.toLower = c := by
  simp only [isWs, Bool.or_eq_true, decide_eq_true_eq] at h
  rcases h with ((rfl | rfl) | rfl) | rfl <;> decide

theorem trimStr_eq_nil_all_ws {s : Str} (h : trimStr s = []) :
    ∀ c ∈ s, isWs c = true := by
  unfold trimStr at h
  rw [List.reverse_eq_nil_iff, List.dropWhile_eq_nil_iff] at h
  intro c hc
  rcases List.mem_append.mp
      ((List.takeWhile_append_dropWhile isWs s) ▸ hc) with h1 | h1
  · exact List.mem_takeWhile_imp h1
  · exact h c (List.mem_reverse.mpr h1)

/-- A string whose lowercasing contains a pattern with a non-whitespace char
does not trim to empty. -/
theorem trimStr_ne_nil_of_includes {t p : Str} (c : Char)
    (hc : c ∈ p) (hcw : isWs c = false)
    (h : includesStr (lowerStr t) p = true) : trimStr t ≠ [] := by
  intro hnil
  have hmem : c ∈ lowerStr t := includesStr_mem h c hc
  rcases List.mem_map.mp hmem with ⟨d, hd, hdl⟩
  have hws : isWs d = true := trimStr_eq_nil_all_ws hnil d hd
  rw [toLower_of_ws hws] at hdl
  subst hdl
  rw [hws] at hcw
  cases hcw

theorem chain_le_mem {a b : Nat} {l : List Nat}
    (h : List.Chain (· ≤ ·) a l) (hb : b ∈ l) : a ≤ b := by
  induction l generalizing a with
  | nil => cases hb
  | cons x l ih =>
    rcases List.chain_cons.mp h with ⟨hax, hchain⟩
    rcases List.mem_cons.mp hb with rfl | hb
    · exact hax
    · exact le_trans hax (ih hchain hb)

theorem fragTimes_cons_frag (t : Nat) (x : Str) (evs : List SEvent) :
    fragTimes (SEvent.frag t x :: evs) = t :: fragTimes evs := rfl

theorem fragTimes_cons_fire (t : Nat) (evs : List SEvent) :
    fragTimes (SEvent.fire t :: evs) = fragTimes evs := rfl

theorem fireTimes_cons_frag (t : Nat) (x : Str) (evs : List SEvent) :
    fireTimes (SEvent.frag t x :: evs) = fireTimes evs := rfl

theorem fireTimes_cons_fire (t : Nat) (evs : List SEvent) :
    fireTimes (SEvent.fire t :: evs) = t :: fireTimes evs := rfl

theorem fragTimes_subset_eventTimes {t : Nat} {evs : List SEvent}
    (h : t ∈ fragTimes evs) : t ∈ eventTimes evs := by
  induction evs with
  | nil => cases h
  | cons e evs ih =>
    cases e with
    | frag u text =>
      simp only [fragTimes, List.filterMap_cons] at h
      simp only [eventTimes, List.map_cons, eventTime]
      rcases List.mem_cons.mp h with rfl | h
      · exact List.mem_cons_self _ _
      · exact List.mem_cons_of_mem _ (ih h)
    | fire u =>
      simp only [fragTimes, List.filterMap_cons] at h
      simp only [eventTimes, List.map_cons, eventTime]
      exact List.mem_cons_of_mem _ (ih h)

/-- Debounce loop invariant: given time-ordered events whose fragment times
match the pending list, whose gaps respect the 2000 ms silence window, and
whose timer firings stay below 3900 ms, the run ends with the recording flag
set once all pending fragments are consumed. -/
theorem runInput_loop (evs : List SEvent) (st : InputState)
    (pending : List Nat) (lo : Nat)
    (hfrag : fragTimes evs = pending)
    (hchain : List.Chain (· ≤ ·) lo (eventTimes evs))
    (hfire : ∀ t ∈ fireTimes evs, t < 3900)
    (hgaps : gapsOk pending = true)
    (hinv : inputInv st pending) :
    (evs.foldl istep st).recording = true := by
  induction evs generalizing st pending lo with
  | nil =>
    simp only [fragTimes, List.filterMap_nil] at hfrag
    subst hfrag
    exact hinv.1
  | cons e evs ih =>
    cases e with
    | frag t text =>
      rw [fragTimes_cons_frag] at hfrag
      cases pending with
      | nil => cases hfrag
      | cons p ps =>
        have ht : t = p := (List.cons.injEq _ _ _ _ ▸ hfrag).1
        have hps : fragTimes evs = ps := (List.cons.injEq _ _ _ _ ▸ hfrag).2
        subst ht
        have hchain2 : List.Chain (· ≤ ·) t (eventTimes evs) :=
          (List.chain_cons.mp hchain).2
        have hfire2 : ∀ u ∈ fireTimes evs, u < 3900 := by
          intro u hu
          exact hfire u ((fireTimes_cons_frag t text evs) ▸ hu)
        simp only [List.foldl_cons, istep]
        cases ps with
        | nil =>
          refine ih _ [] t hps hchain2 hfire2 rfl ?_
          refine ⟨rfl, t + silenceMs, rfl, ?_⟩
          simpa [gapsOk] using hgaps
        | cons p2 ps2 =>
          have hg := hgaps
          simp only [gapsOk, Bool.and_eq_true, decide_eq_true_eq] at hg
          refine ih _ (p2 :: ps2) t hps hchain2 hfire2 ?_ ?_
          · exact hg.2
          · exact Or.inr ⟨t + silenceMs, rfl, hg.1⟩
    | fire t =>
      rw [fragTimes_cons_fire] at hfrag
      have hchain2 : List.Chain (· ≤ ·) t (eventTimes evs) :=
        (List.chain_cons.mp hchain).2
      have hfire2 : ∀ u ∈ fireTimes evs, u < 3900 := by
        intro u hu
        refine hfire u ?_
        rw [fireTimes_cons_fire]
        exact List.mem_cons_of_mem _ hu
      have ht39 : t < 3900 := by
        refine hfire t ?_
        rw [fireTimes_cons_fire]
        exact List.mem_cons_self _ _
      simp only [List.foldl_cons]
      cases pending with
      | nil =>
        rcases hinv with ⟨hrec, d, hd, hd39⟩
        have hno : istep st (SEvent.fire t) = st := by
          simp only [istep, hd]
          rw [if_neg]
          omega
        rw [hno]
        exact ih _ [] t hfrag hchain2 hfire2 rfl ⟨hrec, d, hd, hd39⟩
      | cons p ps =>
        have hp_mem : p ∈ eventTimes evs := by
          apply fragTimes_subset_eventTimes
          rw [hfrag]
          exact List.mem_cons_self _ _
        have htp : t ≤ p := chain_le_mem hchain2 hp_mem
        rcases hinv with hnone | ⟨d, hd, hpd⟩
        · have hno : istep st (SEvent.fire t) = st := by
            simp only [istep, hnone]
          rw [hno]
          exact ih _ (p :: ps) t hfrag hchain2 hfire2 hgaps (Or.inl hnone)
        · have hno : istep st (SEvent.fire t) = st := by
            simp only [istep, hd]
            rw [if_neg]
            omega
          rw [hno]
          exact ih _ (p :: ps) t hfrag hchain2 hfire2 hgaps
            (Or.inr ⟨d, hd, hpd⟩)

theorem countDispatch_nil : countDispatch [] = 0 := rfl

/-- Case analysis of `processReflection`: the call is a rejected no-op, a
mood-tracker navigation, or a run that issues exactly one dispatch and
records the text as last processed. -/
theorem processReflection_cases (s : ClientState) (t : Str) (o : FetchOutcome) :
    processReflection s t o = (s, [])
    ∨ processReflection s t o = (s, [Effect.navigate (strL "/moodtracker")])
    ∨ (countDispatch (processReflection s t o).2 = 1
       ∧ (processReflection s t o).1.lastProcessedTranscript = t) := by
  unfold processReflection
  split
  · exact Or.inl rfl
  · split
    · exact Or.inr (Or.inl rfl)
    · refine Or.inr (Or.inr ?_)
      cases o with
      | ok body =>
        simp only []
        split
        · exact ⟨by simp [failurePath, countDispatch, isDispatchEff, List.filter],
                 by simp [failurePath]⟩
        · refine ⟨by simp [countDispatch, isDispatchEff, List.filter], ?_⟩
          simp only []
          split <;> rfl
      | networkError =>
        exact ⟨by simp [failurePath, countDispatch, isDispatchEff, List.filter],
               by simp [failurePath]⟩
      | httpError status =>
        exact ⟨by simp [failurePath, countDispatch, isDispatchEff, List.filter],
               by simp [failurePath]⟩
      | badJson =>
        exact ⟨by simp [failurePath, countDispatch, isDispatchEff, List.filter],
               by simp [failurePath]⟩

theorem processReflection_count_le_one (s : ClientState) (t : Str)
    (o : FetchOutcome) :
    countDispatch (processReflection s t o).2 ≤ 1 := by
  rcases processReflection_cases s t o with h | h | h
  · rw [h]; exact Nat.zero_le 1
  · rw [h]; simp [countDispatch, isDispatchEff, List.filter]
  · rw [h.1]

theorem processReflection_dispatch_lastProcessed (s : ClientState) (t : Str)
    (o : FetchOutcome)
    (h : 1 ≤ countDispatch (processReflection s t o).2) :
    (processReflection s t o).1.lastProcessedTranscript = t := by
  rcases processReflection_cases s t o with hc | hc | hc
  · rw [hc] at h; simp [countDispatch] at h
  · rw [hc] at h; simp [countDispatch, isDispatchEff, List.filter] at h
  · exact hc.2

theorem turnStep_count_le_one (s : ClientState) (rec : Bool) (o : FetchOutcome) :
    countDispatch (turnStep s rec o).2 ≤ 1 := by
  unfold turnStep
  split
  · exact processReflection_count_le_one _ _ _
  · simp [countDispatch]

/-! ## Claim theorems -/

/-- Claim C1: dispatch is invoked at most once per distinct buffered text
value. If the same finalized text is delivered twice in a row (the second
turn re-delivering the same buffered transcript) without an intervening
reset of the last-processed text, the two turns together issue at most one
Reflection Service call: a dispatching run records the text as last
processed, and the dispatch guard rejects a transcript equal to it. -/
theorem dispatch_dedup (s : ClientState) (rec1 rec2 : Bool)
    (o1 o2 : FetchOutcome) :
    countDispatch (turnStep s rec1 o1).2
      + countDispatch
          (turnStep { (turnStep s rec1 o1).1 with transcript := s.transcript }
            rec2 o2).2 ≤ 1 := by
  by_cases hg1 : dispatchGuard rec1 s.transcript s.lastProcessedTranscript = true
  case neg =>
    have e1 : turnStep s rec1 o1 = (s, []) := by
      unfold turnStep
      rw [if_neg hg1]
    rw [e1]
    have h2 := turnStep_count_le_one { s with transcript := s.transcript } rec2 o2
    simpa [countDispatch] using h2
  case pos =>
    have e1 : turnStep s rec1 o1 = processReflection s s.transcript o1 := by
      unfold turnStep
      rw [if_pos hg1]
    rw [e1]
    rcases Nat.lt_or_ge (countDispatch (processReflection s s.transcript o1).2) 1
      with hc | hc
    · have hc0 : countDispatch (processReflection s s.transcript o1).2 = 0 :=
        Nat.lt_one_iff.mp hc
      rw [hc0]
      have h2 := turnStep_count_le_one
        { (processReflection s s.transcript o1).1 with transcript := s.transcript }
        rec2 o2
      simpa using h2
    · have hlast := processReflection_dispatch_lastProcessed s s.transcript o1 hc
      have hg2 : dispatchGuard rec2 s.transcript
          (processReflection s s.transcript o1).1.lastProcessedTranscript = false := by
        rw [hlast]
        simp [dispatchGuard]
      have e2 : turnStep
          { (processReflection s s.transcript o1).1 with transcript := s.transcript }
          rec2 o2
          = ({ (processReflection s s.transcript o1).1 with transcript := s.transcript }, []) := by
        unfold turnStep
        rw [if_neg]
        simpa using hg2
      rw [e2]
      have h1 := processReflection_count_le_one s s.transcript o1
      simpa [countDispatch] using h1

/-- Claim C2: a final buffered text of length at most 10 never dispatches,
and any dispatch requires the recording flag to be cleared and the buffered
text to be longer than 10 characters. -/
theorem short_text_no_dispatch (s : ClientState) (frags : List Str)
    (recFlag : Bool) (o : FetchOutcome)
    (h : (bufferAfter s.transcript frags).length ≤ 10) :
    countDispatch
        (turnStep { s with transcript := bufferAfter s.transcript frags }
          recFlag o).2 = 0
    ∧ ∀ (s2 : ClientState) (rec2 : Bool) (o2 : FetchOutcome),
        1 ≤ countDispatch (turnStep s2 rec2 o2).2 →
        rec2 = false ∧ s2.transcript.length > 10 := by
  constructor
  · have hg : dispatchGuard recFlag (bufferAfter s.transcript frags)
        s.lastProcessedTranscript = false := by
      unfold dispatchGuard
      have : decide ((bufferAfter s.transcript frags).length > 10) = false := by
        simp
        omega
      rw [this]
      simp
    unfold turnStep
    rw [if_neg]
    · rfl
    · simpa using hg
  · intro s2 rec2 o2 hcd
    by_cases hg2 : dispatchGuard rec2 s2.transcript s2.lastProcessedTranscript = true
    · unfold dispatchGuard at hg2
      simp only [Bool.and_eq_true, Bool.not_eq_true', decide_eq_true_eq] at hg2
      exact ⟨hg2.1.1.1, hg2.1.2⟩
    · exfalso
      have : turnStep s2 rec2 o2 = (s2, []) := by
        unfold turnStep
        rw [if_neg hg2]
      rw [this] at hcd
      simp [countDispatch] at hcd

/-- Witness for C2 at a concrete short fragment sequence. -/
theorem short_text_no_dispatch_witness :
    countDispatch
        (turnStep { currentTone := strL "neutral", isProcessing := false,
                    transcript := bufferAfter [] [strL "hi", strL "hi there"],
                    showTranscript := true, aiResponse := [], isClient := true,
                    error := none, userId := none, userHistory := [],
                    lastProcessedTranscript := [], isListening := true }
          false FetchOutcome.networkError).2 = 0 := by
  have h := short_text_no_dispatch
    { currentTone := strL "neutral", isProcessing := false,
      transcript := [], showTranscript := true, aiResponse := [],
      isClient := true, error := none, userId := none, userHistory := [],
      lastProcessedTranscript := [], isListening := true }
    [strL "hi", strL "hi there"] false FetchOutcome.networkError (by decide)
  exact h.1

/-- Claim C3: the silence timer is a debounce. For any time-ordered event
trace whose non-empty fragments arrive at 0 ms, 1500 ms and 1900 ms and in
which the armed timer never gets to fire before 3900 ms has been reached,
the recording flag is still set after the whole trace — each fragment
re-armed the 2000 ms timer before the previous deadline could elapse — and
while it is set the dispatch guard cannot pass. -/
theorem silence_timer_debounce (evs : List SEvent)
    (hfrag : fragTimes evs = [0, 1500, 1900])
    (hchain : List.Chain (· ≤ ·) 0 (eventTimes evs))
    (hfire : ∀ t ∈ fireTimes evs, t < 3900) :
    (runInput evs).recording = true
    ∧ ∀ (t last : Str), dispatchGuard (runInput evs).recording t last = false := by
  have h : (runInput evs).recording = true := by
    unfold runInput
    exact runInput_loop evs ⟨false, none, []⟩ [0, 1500, 1900] 0 hfrag hchain
      hfire (by decide) (Or.inl rfl)
  refine ⟨h, ?_⟩
  intro t last
  unfold dispatchGuard
  rw [h]
  rfl

/-- Witness for C3 on a concrete trace with two timer-fire checks before
3900 ms. -/
theorem silence_timer_debounce_witness :
    (runInput [SEvent.frag 0 (strL "I feel"), SEvent.fire 1000,
               SEvent.frag 1500 (strL "I feel rea"),
               SEvent.frag 1900 (strL "I feel real"),
               SEvent.fire 3000]).recording = true := by
  exact (silence_timer_debounce _ (by decide)
    (by simp [eventTimes, eventTime, List.chain_cons]) (by decide)).1

theorem procReach_inFlight {s : ProcState} (h : ProcReach s) :
    s.inFlight = if s.isProcessing then 1 else 0 := by
  induction h with
  | init => rfl
  | step hr hstep ih =>
    cases hstep with
    | start hp =>
      rw [hp] at ih
      simp only [Bool.false_eq_true, if_false] at ih
      simp [ih]
    | guardReject hp => exact ih
    | finish hp =>
      rw [hp] at ih
      simp only [if_true] at ih
      simp [ih]

/-- Claim C4: at most one utterance is in flight at any time. In every
reachable state of the processing gate, the number of pending dispatches is
at most one, the gate being open means nothing is pending (so an accepted
new dispatch starts from zero in flight), and at the code level a call of
`processReflection` made while the processing flag is set performs nothing. -/
theorem at_most_one_in_flight (s : ProcState) (h : ProcReach s) :
    s.inFlight ≤ 1
    ∧ (s.isProcessing = false → s.inFlight = 0)
    ∧ ∀ (cs : ClientState) (t : Str) (o : FetchOutcome),
        cs.isProcessing = true → processReflection cs t o = (cs, []) := by
  have hinv := procReach_inFlight h
  refine ⟨?_, ?_, ?_⟩
  · rw [hinv]; split <;> omega
  · intro hp; rw [hinv, hp]; simp
  · intro cs t o hcs
    unfold processReflection
    rw [if_pos]
    rw [hcs]
    simp

/-- Witness for C4 at the reachable state with one dispatch in flight. -/
theorem at_most_one_in_flight_witness :
    ProcReach ⟨true, 1⟩ ∧ (⟨true, 1⟩ : ProcState).inFlight ≤ 1 := by
  have hr : ProcReach ⟨true, 1⟩ :=
    ProcReach.step ProcReach.init (ProcStep.start ⟨false, 0⟩ rfl)
  exact ⟨hr, (at_most_one_in_flight _ hr).1⟩

theorem processReflection_failure_eq (s : ClientState) (t : Str)
    (o : FetchOutcome)
    (hp : s.isProcessing = false) (ht : trimStr t ≠ [])
    (hm : (includesStr (lowerStr t) moodPhrase1
           || includesStr (lowerStr t) moodPhrase2) = false)
    (hfail : isFailureOutcome o = true) :
    processReflection s t o
      = ({ s with isProcessing := false, error := some (troubleMsg o),
                  aiResponse := fallbackResponse, lastProcessedTranscript := t },
         [Effect.dispatchRequest (trimStr t) s.userId,
          Effect.speakCall fallbackResponse,
          Effect.schedule 3000 ResetKind.afterFailure]) := by
  unfold processReflection
  rw [if_neg (by simp [hp, ht]), if_neg (by simp_all)]
  cases o with
  | ok body =>
    simp only [isFailureOutcome] at hfail
    simp only []
    rw [if_pos (by simp_all)]
    rfl
  | networkError => rfl
  | httpError status => rfl
  | badJson => rfl

/-- Claim C5: every Reflection Service failure (thrown network error,
non-success status, unparsable body, or body missing a required field) takes
the catch path: exactly one fallback playback attempt with the fixed fallback
text, a transient error message surfaced, and the scheduled 3000 ms recovery
that clears the error and the transcript and re-arms listening when not
already listening; the function returns normally on every failure kind. -/
theorem reflect_failure_fallback (s : ClientState) (t : Str) (o : FetchOutcome)
    (hp : s.isProcessing = false)
    (ht : trimStr t ≠ [])
    (hm : (includesStr (lowerStr t) moodPhrase1
           || includesStr (lowerStr t) moodPhrase2) = false)
    (hfail : isFailureOutcome o = true) :
    (processReflection s t o).2
      = [Effect.dispatchRequest (trimStr t) s.userId,
         Effect.speakCall fallbackResponse,
         Effect.schedule 3000 ResetKind.afterFailure]
    ∧ (processReflection s t o).1.error = some (troubleMsg o)
    ∧ (processReflection s t o).1.aiResponse = fallbackResponse
    ∧ (applyReset ResetKind.afterFailure (processReflection s t o).1).1.error = none
    ∧ (applyReset ResetKind.afterFailure (processReflection s t o).1).1.transcript = []
    ∧ (s.isClient = true → s.isListening = false →
        (applyReset ResetKind.afterFailure (processReflection s t o).1).2
          = [Effect.startListeningCall]) := by
  rw [processReflection_failure_eq s t o hp ht hm hfail]
  refine ⟨rfl, rfl, rfl, rfl, rfl, ?_⟩
  intro hic hil
  simp [applyReset, hic, hil]

/-- Witness for C5 at a concrete state and a network failure. -/
theorem reflect_failure_fallback_witness :
    (processReflection
        { currentTone := strL "neutral", isProcessing := false,
          transcript := strL "I feel really anxious today",
          showTranscript := true, aiResponse := [], isClient := true,
          error := none, userId := none, userHistory := [],
          lastProcessedTranscript := [], isListening := false }
        (strL "I feel really anxious today") FetchOutcome.networkError).2
      = [Effect.dispatchRequest (strL "I feel really anxious today") none,
         Effect.speakCall fallbackResponse,
         Effect.schedule 3000 ResetKind.afterFailure] := by
  have h := reflect_failure_fallback
    { currentTone := strL "neutral", isProcessing := false,
      transcript := strL "I feel really anxious today",
      showTranscript := true, aiResponse := [], isClient := true,
      error := none, userId := none, userHistory := [],
      lastProcessedTranscript := [], isListening := false }
    (strL "I feel really anxious today") FetchOutcome.networkError
    rfl (by decide) (by decide) rfl
  exact (by decide : trimStr (strL "I feel really anxious today")
    = strL "I feel really anxious today") ▸ h.1

theorem processReflection_success_eq (s : ClientState) (t : Str)
    (body : RespBody)
    (hp : s.isProcessing = false) (ht : trimStr t ≠ [])
    (hm : (includesStr (lowerStr t) moodPhrase1
           || includesStr (lowerStr t) moodPhrase2) = false)
    (hr : body.response ≠ []) (hto : body.tone ≠ []) (hu : body.userId ≠ []) :
    processReflection s t (.ok body)
      = ({ s with isProcessing := false, error := none,
                  lastProcessedTranscript := t, userId := some body.userId,
                  currentTone := body.tone, aiResponse := body.response,
                  userHistory := HistoryItem.mk t body.tone body.response
                    :: s.userHistory.take 9 },
         [Effect.dispatchRequest (trimStr t) s.userId,
          Effect.stopSpeakingCall, Effect.speakCall body.response,
          Effect.schedule 2000 ResetKind.afterSuccess]) := by
  unfold processReflection
  rw [if_neg (by simp [hp, ht]), if_neg (by simp_all)]
  simp only []
  rw [if_neg (by simp_all)]
  by_cases hcase : s.userId = some body.userId
  · rw [if_neg (by simp [hcase])]
    simp [hcase]
  · rw [if_pos (by simp [hcase])]

/-- Claim C6: a successful well-formed response (non-empty reply, tone and
identity token) sets the current tone and reply to exactly the returned
values, stores the returned identity token, prepends the turn to history,
stops any current playback and speaks exactly the returned reply, and
schedules the 2000 ms reset that clears the transcript and re-arms listening
when not already listening; a body missing any required field instead takes
the failure path with its single fallback playback and error message. -/
theorem reflect_success_updates (s : ClientState) (t : Str) (body : RespBody)
    (hp : s.isProcessing = false) (ht : trimStr t ≠ [])
    (hm : (includesStr (lowerStr t) moodPhrase1
           || includesStr (lowerStr t) moodPhrase2) = false)
    (hr : body.response ≠ []) (hto : body.tone ≠ []) (hu : body.userId ≠ []) :
    (processReflection s t (.ok body)).2
      = [Effect.dispatchRequest (trimStr t) s.userId,
         Effect.stopSpeakingCall, Effect.speakCall body.response,
         Effect.schedule 2000 ResetKind.afterSuccess]
    ∧ (processReflection s t (.ok body)).1.currentTone = body.tone
    ∧ (processReflection s t (.ok body)).1.aiResponse = body.response
    ∧ (processReflection s t (.ok body)).1.userId = some body.userId
    ∧ (processReflection s t (.ok body)).1.userHistory
        = HistoryItem.mk t body.tone body.response :: s.userHistory.take 9
    ∧ (applyReset ResetKind.afterSuccess
        (processReflection s t (.ok body)).1).1.transcript = []
    ∧ (s.isClient = true → s.isListening = false →
        (applyReset ResetKind.afterSuccess
          (processReflection s t (.ok body)).1).2 = [Effect.startListeningCall])
    ∧ ∀ b2 : RespBody,
        (b2.response = [] ∨ b2.tone = [] ∨ b2.userId = []) →
        (processReflection s t (.ok b2)).2
          = [Effect.dispatchRequest (trimStr t) s.userId,
             Effect.speakCall fallbackResponse,
             Effect.schedule 3000 ResetKind.afterFailure]
        ∧ (processReflection s t (.ok b2)).1.error
            = some (troubleMsg (.ok b2)) := by
  rw [processReflection_success_eq s t body hp ht hm hr hto hu]
  refine ⟨rfl, rfl, rfl, rfl, rfl, rfl, ?_, ?_⟩
  · intro hic hil
    simp [applyReset, hic, hil]
  · intro b2 hb2
    have hfail : isFailureOutcome (.ok b2) = true := by
      simp only [isFailureOutcome]
      rcases hb2 with h | h | h <;> simp [h]
    rw [processReflection_failure_eq s t (.ok b2) hp ht hm hfail]
    exact ⟨rfl, rfl⟩

/-- Witness for C6 at a concrete state and a well-formed excited response. -/
theorem reflect_success_updates_witness :
    (processReflection
        { currentTone := strL "neutral", isProcessing := false,
          transcript := strL "I got the job today", showTranscript := true,
          aiResponse := [], isClient := true, error := none, userId := none,
          userHistory := [], lastProcessedTranscript := [],
          isListening := false }
        (strL "I got the job today")
        (FetchOutcome.ok ⟨strL "Great to hear!", strL "excited", strL "u1"⟩)).1.currentTone
      = strL "excited" := by
  have h := reflect_success_updates
    { currentTone := strL "neutral", isProcessing := false,
      transcript := strL "I got the job today", showTranscript := true,
      aiResponse := [], isClient := true, error := none, userId := none,
      userHistory := [], lastProcessedTranscript := [], isListening := false }
    (strL "I got the job today")
    ⟨strL "Great to hear!", strL "excited", strL "u1"⟩
    rfl (by decide) (by decide) (by decide) (by decide) (by decide)
  exact h.2.1

/-- Claim C7: the Playback Sink serializes speech. A `speak` call issued
while an utterance is pending first cancels it — the prior promise is settled
through its registered handler, never left hanging — and becomes the single
pending utterance; a cancellation mid-speech likewise settles the pending
promise and leaves the engine free, so an immediately following `speak`
proceeds. -/
theorem playback_serialization (st : SinkState) (i : Nat) (u t : Str)
    (hpend : st.pending = some (i, u)) :
    ((sinkStep st (.speakOp t)).pending = some (st.nextId, t)
      ∧ Settlement.mk i true ∈ (sinkStep st (.speakOp t)).settled)
    ∧ ((sinkStep st .cancelOp).pending = none
      ∧ Settlement.mk i true ∈ (sinkStep st .cancelOp).settled)
    ∧ ∀ t2 : Str,
        (sinkStep (sinkStep st .cancelOp) (.speakOp t2)).pending
          = some ((sinkStep st .cancelOp).nextId, t2) := by
  refine ⟨⟨?_, ?_⟩, ⟨?_, ?_⟩, ?_⟩ <;>
    simp [sinkStep, cancelPending, hpend]

/-- Witness for C7 at a concrete sink state with one pending utterance. -/
theorem playback_serialization_witness :
    (sinkStep ⟨some (0, strL "hello"), [], 1⟩ SinkOp.cancelOp).pending = none
    ∧ Settlement.mk 0 true
        ∈ (sinkStep ⟨some (0, strL "hello"), [], 1⟩ SinkOp.cancelOp).settled := by
  exact (playback_serialization ⟨some (0, strL "hello"), [], 1⟩ 0
    (strL "hello") (strL "next") rfl).2.1

/-- Claim C8: tone classification is total over the enumerated open set. The
result is always one of the seven tones; a missing API key, a classifier
error and an unrecognized model output all yield neutral; a recognized
(trimmed, lowercased) output yields exactly that tone. -/
theorem tone_detection_total (key : Option Str) (r : Except Str Str) :
    (detectToneFromAI key r = Tone.calm ∨ detectToneFromAI key r = Tone.excited
      ∨ detectToneFromAI key r = Tone.sad ∨ detectToneFromAI key r = Tone.neutral
      ∨ detectToneFromAI key r = Tone.angry ∨ detectToneFromAI key r = Tone.anxious
      ∨ detectToneFromAI key r = Tone.hopeful)
    ∧ (key = none → detectToneFromAI key r = Tone.neutral)
    ∧ (∀ e, r = Except.error e → detectToneFromAI key r = Tone.neutral)
    ∧ (∀ out, r = Except.ok out → toneOfStr (lowerStr (trimStr out)) = none →
        detectToneFromAI key r = Tone.neutral)
    ∧ (∀ out t0, r = Except.ok out →
        toneOfStr (lowerStr (trimStr out)) = some t0 → key ≠ none →
        detectToneFromAI key r = t0) := by
  refine ⟨?_, ?_, ?_, ?_, ?_⟩
  · cases htone : detectToneFromAI key r <;> simp
  · intro hk; subst hk; rfl
  · intro e he; subst he; cases key <;> rfl
  · intro out ho hn
    subst ho
    cases key with
    | none => rfl
    | some k => simp [detectToneFromAI, hn]
  · intro out t0 ho hs hk
    subst ho
    cases key with
    | none => exact absurd rfl hk
    | some k => simp [detectToneFromAI, hs]

/-- Witness for C8: a recognized output after trimming and lowercasing, and
the missing-key fallback. -/
theorem tone_detection_total_witness :
    detectToneFromAI (some (strL "key")) (Except.ok (strL " CALM ")) = Tone.calm
    ∧ detectToneFromAI none (Except.ok (strL "calm")) = Tone.neutral := by
  constructor
  · exact (tone_detection_total (some (strL "key"))
      (Except.ok (strL " CALM "))).2.2.2.2 (strL " CALM ") Tone.calm rfl
      (by decide) (by simp)
  · exact (tone_detection_total none (Except.ok (strL "calm"))).2.1 rfl

theorem getOrCreateUser_histories (db : DB) (uid : Option Str)
    (freshId : Str) :
    (getOrCreateUser db uid freshId).2.histories = db.histories := by
  cases uid with
  | none => rfl
  | some u =>
    simp only [getOrCreateUser]
    split <;> rfl

/-- Counterexample to claim C9 as stated: the source's
`saveReflectionToHistory` catches and swallows a failing
`prisma.history.create`, and the POST handler calls it without awaiting it,
so with a failing database write the server still answers success while
nothing is persisted — here a concrete valid request with a failing write
gets a success response and leaves the history store empty. -/
theorem reflect_persistence_cex :
    (postReflect ⟨[strL "u1"], []⟩ (some (strL "hello world"))
        (some (strL "u1")) (strL "u2") Tone.calm (strL "welcome") false).1
      = ServerResp.ok ⟨strL "welcome", strL "calm", strL "u1"⟩
    ∧ (postReflect ⟨[strL "u1"], []⟩ (some (strL "hello world"))
        (some (strL "u1")) (strL "u2") Tone.calm (strL "welcome") false).2.histories
      = [] := by
  constructor <;> rfl

/-- Claim C9 (amended): a request whose text is missing or empty after
trimming is rejected with HTTP 400 and leaves the store untouched. On every
other request the server answers success with an identity token that is the
caller's token when it names an existing user and a freshly created user's
token otherwise; when the history write succeeds the turn is persisted under
exactly that token, but a failing write is swallowed (the handler does not
await it and the function catches its error), so the server still answers
success with the same token while the history store is left unchanged. -/
theorem reflect_persistence (db : DB) (text uid : Option Str)
    (freshId : Str) (tone : Tone) (respText : Str) (writeOk : Bool) :
    ((text = none ∨ ∃ t, text = some t ∧ trimStr t = []) →
      postReflect db text uid freshId tone respText writeOk
        = (ServerResp.err 400 (strL "Text is required"), db))
    ∧ (∀ (t u0 : Str), text = some t → trimStr t ≠ [] → uid = some u0 →
        u0 ≠ [] → u0 ∈ db.users → writeOk = true →
        postReflect db text uid freshId tone respText writeOk
          = (ServerResp.ok ⟨respText, toneStr tone, u0⟩,
             ⟨db.users,
              db.histories ++ [⟨u0, t, toneStr tone, respText⟩]⟩))
    ∧ (∀ t : Str, text = some t → trimStr t ≠ [] →
        (∀ u0, uid = some u0 → u0 = [] ∨ u0 ∉ db.users) → writeOk = true →
        postReflect db text uid freshId tone respText writeOk
          = (ServerResp.ok ⟨respText, toneStr tone, freshId⟩,
             ⟨freshId :: db.users,
              db.histories ++ [⟨freshId, t, toneStr tone, respText⟩]⟩))
    ∧ (∀ t : Str, text = some t → trimStr t ≠ [] → writeOk = false →
        (postReflect db text uid freshId tone respText writeOk).2.histories
          = db.histories
        ∧ ∃ u : Str,
            (postReflect db text uid freshId tone respText writeOk).1
              = ServerResp.ok ⟨respText, toneStr tone, u⟩) := by
  refine ⟨?_, ?_, ?_, ?_⟩
  · rintro (rfl | ⟨t, rfl, htr⟩)
    · rfl
    · simp [postReflect, htr]
  · rintro t u0 rfl htr rfl hne hmem rfl
    simp [postReflect, htr, getOrCreateUser, hne, hmem, saveReflectionToHistory]
  · rintro t rfl htr habs rfl
    cases uid with
    | none => simp [postReflect, htr, getOrCreateUser, saveReflectionToHistory]
    | some u0 =>
      rcases habs u0 rfl with h | h
      · subst h
        simp [postReflect, htr, getOrCreateUser, saveReflectionToHistory]
      · simp [postReflect, htr, getOrCreateUser, h, saveReflectionToHistory]
  · rintro t rfl htr rfl
    refine ⟨?_, (getOrCreateUser db uid freshId).1, ?_⟩
    · simp [postReflect, htr, saveReflectionToHistory,
        getOrCreateUser_histories]
    · simp [postReflect, htr, saveReflectionToHistory]

/-- Witness for C9: an existing caller token keeps its identity and, with the
write succeeding, the turn is appended under it; with the write failing the
same request still answers success while the store stays empty. -/
theorem reflect_persistence_witness :
    postReflect ⟨[strL "u1"], []⟩ (some (strL "hello world"))
        (some (strL "u1")) (strL "u2") Tone.calm (strL "welcome") true
      = (ServerResp.ok ⟨strL "welcome", strL "calm", strL "u1"⟩,
         ⟨[strL "u1"],
          [⟨strL "u1", strL "hello world", strL "calm", strL "welcome"⟩]⟩)
    ∧ (postReflect ⟨[strL "u1"], []⟩ (some (strL "hello world"))
        (some (strL "u1")) (strL "u2") Tone.calm (strL "welcome") false).2.histories
      = [] := by
  constructor
  · exact (reflect_persistence ⟨[strL "u1"], []⟩ (some (strL "hello world"))
      (some (strL "u1")) (strL "u2") Tone.calm (strL "welcome") true).2.1
      (strL "hello world") (strL "u1") rfl (by decide) rfl (by decide)
      (by decide) rfl
  · exact ((reflect_persistence ⟨[strL "u1"], []⟩ (some (strL "hello world"))
      (some (strL "u1")) (strL "u2") Tone.calm (strL "welcome") false).2.2.2
      (strL "hello world") rfl (by decide) rfl).1

/-- Claim C10: a finalized utterance whose lowercased text contains the
phrase mood tracker triggers no Reflection Service request and leaves the
whole controller state — tone, reply, history and last-dispatched text —
unchanged; the only effect is the navigation to the mood-tracker page. -/
theorem mood_tracker_frame (s : ClientState) (t : Str) (o : FetchOutcome)
    (hp : s.isProcessing = false)
    (hm : includesStr (lowerStr t) moodPhrase2 = true) :
    processReflection s t o = (s, [Effect.navigate (strL "/moodtracker")])
    ∧ countDispatch (processReflection s t o).2 = 0 := by
  have ht : trimStr t ≠ [] :=
    trimStr_ne_nil_of_includes 'm' (by decide) (by decide) hm
  have he : processReflection s t o
      = (s, [Effect.navigate (strL "/moodtracker")]) := by
    unfold processReflection
    rw [if_neg (by simp [hp, ht]), if_pos (by simp [hm])]
  exact ⟨he, by rw [he]; rfl⟩

/-- Witness for C10 at a concrete voice command. -/
theorem mood_tracker_frame_witness :
    processReflection
        { currentTone := strL "neutral", isProcessing := false,
          transcript := strL "please open Mood Tracker", showTranscript := true,
          aiResponse := [], isClient := true, error := none, userId := none,
          userHistory := [], lastProcessedTranscript := [], isListening := true }
        (strL "please open Mood Tracker") FetchOutcome.badJson
      = ({ currentTone := strL "neutral", isProcessing := false,
           transcript := strL "please open Mood Tracker", showTranscript := true,
           aiResponse := [], isClient := true, error := none, userId := none,
           userHistory := [], lastProcessedTranscript := [], isListening := true },
         [Effect.navigate (strL "/moodtracker")]) := by
  exact (mood_tracker_frame _ _ _ rfl (by decide)).1
